import Mathlib

/-!
A verification development for the EC2 macOS Init execution engine.

The Go sources are shallowly embedded: each Lean definition mirrors one Go
function from the repository (file and function named in its doc comment).
Machine integers are modelled as `Int`/`Nat`, fallible operations return
`Except`/`Option`, and the filesystem and HTTP collaborators are explicit
state values threaded through the functions that use them.
-/

set_option maxRecDepth 4000

namespace EC2MacOSInit

/-! ## Data model (lib/ec2macosinit: module.go, instancehistory.go) -/

/-- Go struct `CommandModule` (command.go): fields `Cmd`, `RunAsUser`,
`EnvironmentVars`. -/
structure CommandModule where
  cmd : List String
  runAsUser : String
  environmentVars : List String
deriving DecidableEq

/-- Go struct `SSHKeysModule` (sshkeys.go). -/
structure SSHKeysModule where
  dedupKeys : Bool
  getIMDSOpenSSHKey : Bool
  staticOpenSSHKeys : List String
  overwriteAuthorizedKeys : Bool
  user : String
deriving DecidableEq

/-- Go struct `UserDataModule` (userdata.go): field `ExecuteUserData`. -/
structure UserDataModule where
  executeUserData : Bool
deriving DecidableEq

/-- Go struct `NetworkCheckModule` (networkcheck.go): field `PingCount`. -/
structure NetworkCheckModule where
  pingCount : Int
deriving DecidableEq

/-- The Go zero value `CommandModule\x7b\x7d` used by `cmp.Equal` in
`identifyModule`. -/
def CommandModule.empty : CommandModule := ⟨[], "", []⟩

/-- The Go zero value `SSHKeysModule\x7b\x7d`. -/
def SSHKeysModule.empty : SSHKeysModule := ⟨false, false, [], false, ""⟩

/-- The Go zero value `UserDataModule\x7b\x7d`. -/
def UserDataModule.empty : UserDataModule := ⟨false⟩

/-- The Go zero value `NetworkCheckModule\x7b\x7d`. -/
def NetworkCheckModule.empty : NetworkCheckModule := ⟨0⟩

/-- Go struct `Module` (module.go).  Field `Type` of the Go struct is named
`type` here (`Type` is reserved in Lean).  `PriorityGroup` is a Go `int`,
modelled as `Int`. -/
structure Module where
  type : String
  success : Bool
  name : String
  priorityGroup : Int
  fatalOnError : Bool
  runOnce : Bool
  runPerBoot : Bool
  runPerInstance : Bool
  commandModule : CommandModule
  sshKeysModule : SSHKeysModule
  userDataModule : UserDataModule
  networkCheckModule : NetworkCheckModule
deriving DecidableEq

/-- Go struct `ModuleHistory` (instancehistory.go): one record of the
history file. -/
structure ModuleHistory where
  key : String
  success : Bool
deriving DecidableEq

/-- Go struct `History` (instancehistory.go).  `RunTime` (a wall-clock
timestamp) is modelled as a `Nat`. -/
structure History where
  instanceID : String
  runTime : Nat
  moduleHistories : List ModuleHistory
  version : Int
deriving DecidableEq

/-! ## Module validation, identification, history key and run-type gate
(lib/ec2macosinit/module.go) -/

/-- The character for a single decimal digit, as produced by Go's
`strconv.Itoa`. -/
def digitChar (d : Nat) : Char :=
  match d with
  | 0 => '0' | 1 => '1' | 2 => '2' | 3 => '3' | 4 => '4'
  | 5 => '5' | 6 => '6' | 7 => '7' | 8 => '8' | 9 => '9'
  | _ => '*'

/-- Decimal digits of `n`, most significant first (`fuel` bounds the
recursion depth; `fuel = n` always suffices). -/
def toDigitsAux : Nat → Nat → List Char
  | 0, _ => []
  | _ + 1, 0 => []
  | fuel + 1, n + 1 => toDigitsAux fuel ((n + 1) / 10) ++ [digitChar ((n + 1) % 10)]

/-- Decimal representation of a `Nat`, as Go's `strconv.Itoa` prints a
non-negative `int`. -/
def natRepr (n : Nat) : List Char :=
  if n = 0 then ['0'] else toDigitsAux n n

/-- Go `strconv.Itoa`: decimal representation of an `int`, with a leading
minus sign when negative. -/
def itoa (i : Int) : String :=
  if i < 0 then String.mk ('-' :: natRepr i.natAbs) else String.mk (natRepr i.toNat)

/-- The `runType` string computed at the start of Go `generateHistoryKey`
(module.go): three successive `if` statements overwrite `runType`, so in the
original order (`RunOnce`, then `RunPerInstance`, then `RunPerBoot`) the
*last* flag that is set wins, and the string is empty when no flag is set. -/
def runTypeString (m : Module) : String :=
  if m.runPerBoot then "RunPerBoot"
  else if m.runPerInstance then "RunPerInstance"
  else if m.runOnce then "RunOnce"
  else ""

/-- Go `(m *Module) generateHistoryKey` (module.go):
`strconv.Itoa(m.PriorityGroup) + "_" + runType + "_" + m.Type + "_" + m.Name`. -/
def generateHistoryKey (m : Module) : String :=
  itoa m.priorityGroup ++ "_" ++ runTypeString m ++ "_" ++ m.type ++ "_" ++ m.name

/-- Go `(m *Module) validateModule` (module.go): exactly one run-type flag
must be set, and the priority must be at least 1. -/
def validateModule (m : Module) : Except String Unit :=
  let runs : Nat := (if m.runOnce then 1 else 0) + (if m.runPerBoot then 1 else 0)
    + (if m.runPerInstance then 1 else 0)
  if runs ≠ 1 then .error "ec2macosinit: incorrect number of run types"
  else if m.priorityGroup < 1 then
    .error "ec2macosinit: module priority is unset or less than 1"
  else .ok ()

/-- Go `(m *Module) identifyModule` (module.go): compares each embedded
sub-configuration against its zero value (`cmp.Equal(x, T\x7b\x7d)`) in the
fixed order command, sshkeys, userdata, networkcheck, and assigns the tag of
the first one that is non-default; errors only when all are default. -/
def identifyModule (m : Module) : Except String Module :=
  if m.commandModule ≠ CommandModule.empty then .ok { m with type := "command" }
  else if m.sshKeysModule ≠ SSHKeysModule.empty then .ok { m with type := "sshkeys" }
  else if m.userDataModule ≠ UserDataModule.empty then .ok { m with type := "userdata" }
  else if m.networkCheckModule ≠ NetworkCheckModule.empty then
    .ok { m with type := "networkcheck" }
  else .error "ec2macosinit: unable to identify module type"

/-- Go `(m *Module) ShouldRun` (module.go).  The Go `RunPerInstance` loop
returns from inside the *first* history entry whose `InstanceID` equals the
current instance id (modelled by `List.find?`): `false` when that entry has
a record with the module's key and `Success` set, `true` otherwise.  The
`RunOnce` loop scans the records of every entry. -/
def ShouldRun (m : Module) (instanceID : String) (history : List History) : Bool :=
  if m.runPerBoot then true
  else
    let key := generateHistoryKey m
    if m.runPerInstance then
      match history.find? (fun inst => instanceID == inst.instanceID) with
      | some inst => !(inst.moduleHistories.any (fun mh => key == mh.key && mh.success))
      | none => true
    else if m.runOnce then
      !(history.any (fun inst =>
          inst.moduleHistories.any (fun mh => key == mh.key && mh.success)))
    else false

/-! ## Config validation pipeline and priority bucketing
(lib/ec2macosinit/config.go) -/

/-- The loop body of Go `ValidateAndIdentify` (config.go), with `seen` the
set of names used so far: identify the module's type, validate it, then
check its name against the set. -/
def validateAndIdentifyAux (seen : List String) : List Module → Except String (List Module)
  | [] => .ok []
  | m :: rest => do
    let m' ← identifyModule m
    let _ ← validateModule m'
    if m'.name ∈ seen then .error "ec2macosinit: duplicate name found in config"
    else do
      let rest' ← validateAndIdentifyAux (m'.name :: seen) rest
      .ok (m' :: rest')

/-- Go `(c *InitConfig) ValidateAndIdentify` (config.go). -/
def ValidateAndIdentify (mods : List Module) : Except String (List Module) :=
  validateAndIdentifyAux [] mods

/-- One iteration of the Go `PrioritizeModules` loop (config.go): grow
`ModulesByPriority` until it can be indexed at `PriorityGroup`, then append
the module to the bucket at index `PriorityGroup - 1`.  The Go cap-growing
loop appends empty buckets and the reslice exposes zeroed (empty) buckets,
so both amount to padding with `[]` up to length `PriorityGroup`. -/
def bucketAdd (bs : List (List Module)) (m : Module) : List (List Module) :=
  let p := m.priorityGroup.toNat
  let bs2 := bs ++ List.replicate (p - bs.length) ([] : List Module)
  bs2.set (p - 1) (bs2.getD (p - 1) [] ++ [m])

/-- Go `(c *InitConfig) PrioritizeModules` (config.go): fold `bucketAdd`
over the validated modules, starting from an empty bucket sequence. -/
def PrioritizeModules (mods : List Module) : List (List Module) :=
  mods.foldl bucketAdd []

/-! ## Instance identity probe (setupinstanceid.go) -/

/-- Go constant `setupMaxAttempts` (setupinstanceid.go). -/
def setupMaxAttempts : Nat := 600

/-- The Go `SetupInstanceID` retry loop (setupinstanceid.go), from counter
value `attempt`, having already made `calls` calls to `UpdateInstanceID`.
The oracle `update` gives the outcome of the n-th call: `some id` when it
succeeds and sets a (non-empty) instance id, `none` when it errors.  Returns
the instance id obtained (or `none` on giving up) together with the total
number of calls made.  Mirrors the source exactly: the guard `attempt >
setupMaxAttempts` is tested *before* `attempt++`, and `attempt` only
advances on failures. -/
def SetupInstanceIDFrom (update : Nat → Option String) (attempt calls : Nat) :
    Option String × Nat :=
  match update calls with
  | some id => (some id, calls + 1)
  | none =>
    if attempt > setupMaxAttempts then (none, calls + 1)
    else SetupInstanceIDFrom update (attempt + 1) (calls + 1)
termination_by (setupMaxAttempts + 1) - attempt
decreasing_by simp only [setupMaxAttempts] at *; omega

/-- Go `SetupInstanceID` (setupinstanceid.go): the loop starts with
`attempt = 0` and no calls made. -/
def SetupInstanceID (update : Nat → Option String) : Option String × Nat :=
  SetupInstanceIDFrom update 0 0

/-! ## Crash-loop guard (lib/ec2macosinit/fatalcount.go, run.go) -/

/-- The state of the fatal-counter file `/tmp/.ec2-macos-init-fatal-counts.json`:
absent, holding a decodable count, or unreadable (an I/O or JSON decode
failure when read). -/
inductive FatalFile where
  | absent
  | stored (count : Int)
  | unreadable
deriving DecidableEq

/-- Go constant `PerBootFatalLimit` (config.go). -/
def PerBootFatalLimit : Int := 100

/-- Go `(r *FatalCount) readFatalCount` (fatalcount.go): if the counter file
does not exist the counter takes the initial value `FatalCount\x7b1\x7d`;
otherwise the file is read and decoded, failures surfacing as errors. -/
def readFatalCount : FatalFile → Except Unit Int
  | .absent => .ok 1
  | .stored c => .ok c
  | .unreadable => .error ()

/-- Go `(c *InitConfig) RetriesExceeded` (config.go): reads the fatal count
and reports whether it exceeds `PerBootFatalLimit`. -/
def RetriesExceeded (f : FatalFile) : Except Unit Bool := do
  let c ← readFatalCount f
  if c > PerBootFatalLimit then return true
  return false

/-- Go `(r *FatalCount) IncrementFatalCount` (fatalcount.go): re-reads the
count, increments it and writes it back.  `writeFails` injects a failure of
`os.WriteFile`; on any error the file is left as it was. -/
def IncrementFatalCount (f : FatalFile) (writeFails : Bool) : Except Unit FatalFile := do
  let c ← readFatalCount f
  if writeFails then .error ()
  else .ok (.stored (c + 1))

/-- Go `computeExitCode` (run.go): consults `RetriesExceeded`; on a read
error logs and returns 1; if the limit was exceeded returns 0; otherwise
increments the persisted counter (a write error is only logged) and returns
the requested exit code unchanged.  Result: (exit code, counter file). -/
def computeExitCode (f : FatalFile) (writeFails : Bool) (e : Int) : Int × FatalFile :=
  match RetriesExceeded f with
  | .error _ => (1, f)
  | .ok true => (0, f)
  | .ok false =>
      match IncrementFatalCount f writeFails with
      | .error _ => (e, f)
      | .ok f' => (e, f')

/-! ## Priority-group scheduler and history write (run.go, instancehistory.go)

Inside a bucket the Go scheduler runs one goroutine per module; each
goroutine writes only its own module's `Success` field, and the bucket is
joined (`wg.Wait()`) before anything reads the results, so the bucket's
effect on the module list is the per-module function `processModule` mapped
over the bucket.  The aggregate-fatal sentinel is a disjunction over the
bucket's tasks. -/

/-- The body of one scheduler goroutine (run.go, inside the bucket loop).
`impl` gives the outcome of dispatching the module to its implementation
(`true` = no error).  Returns the updated module, whether the implementation
was invoked, and whether this task set the aggregate-fatal sentinel.  When
the gate returns false the module is marked successful without dispatch. -/
def processModule (impl : Module → Bool) (instanceID : String) (history : List History)
    (m : Module) : Module × Bool × Bool :=
  if ShouldRun m instanceID history then
    let ok := impl m
    (if ok then { m with success := true } else m, true, !ok && m.fatalOnError)
  else
    ({ m with success := true }, false, false)

/-- One priority level of the scheduler: map `processModule` over the bucket;
collect the names of the modules whose implementation was invoked, and the
aggregate-fatal sentinel (set when any task with `FatalOnError` failed). -/
def processBucket (impl : Module → Bool) (instanceID : String) (history : List History)
    (bucket : List Module) : List Module × List String × Bool :=
  let results := bucket.map (processModule impl instanceID history)
  ((results.map fun r => r.1),
   ((results.filter fun r => r.2.1).map fun r => r.1.name),
   (results.any fun r => r.2.2))

/-- The bucket loop of Go `run` (run.go): process buckets in ascending
order; after a bucket completes, if the aggregate-fatal sentinel is set,
break out of the loop, leaving the remaining buckets untouched.  Returns the
final `ModulesByPriority`, the names of all invoked modules in order, and
whether an aggregate fatal occurred. -/
def processBuckets (impl : Module → Bool) (instanceID : String) (history : List History) :
    List (List Module) → List (List Module) × List String × Bool
  | [] => ([], [], false)
  | b :: rest =>
    let r := processBucket impl instanceID history b
    if r.2.2 then (r.1 :: rest, r.2.1, true)
    else
      let rr := processBuckets impl instanceID history rest
      (r.1 :: rr.1, r.2.1 ++ rr.2.1, rr.2.2)

/-- Go constant `historyVersion` (instancehistory.go). -/
def historyVersion : Int := 1

/-- Go `(c *InitConfig) WriteHistoryFile` (instancehistory.go), the part
that constructs the `History` value: one `ModuleHistory` record per module
of `ModulesByPriority`, in nested-loop order, carrying the module's
generated key and its `Success` flag. -/
def buildHistory (instanceID : String) (now : Nat) (buckets : List (List Module)) :
    History :=
  { instanceID := instanceID
    runTime := now
    moduleHistories := buckets.flatten.map fun m => ⟨generateHistoryKey m, m.success⟩
    version := historyVersion }

/-- The outcome of one `run` invocation: the exit code passed to
`Log.Fatalf` (or `none` when the run returns normally, exiting 0), the
history value written to disk (`none` when the process died before the
write or the write failed), and the names of the modules whose
implementations were invoked. -/
structure RunResult where
  exit : Option Int
  written : Option History
  invoked : List String
deriving DecidableEq

/-- The environment of one `run` invocation: oracles for each external
effect, in the order run.go consults them. -/
structure RunEnv where
  update : Nat → Option String
  config : Option (List Module)
  dirsOk : Bool
  historyRead : Option (List History)
  impl : Module → Bool
  fatalFile : FatalFile
  fatalWriteFails : Bool
  historyWriteOk : Bool
  now : Nat

/-- Go `run` (run.go): the orchestration sequence.  Each `Log.Fatalf(code,
...)` exits the process with `computeExitCode(c, code)`; stages after a
fatal never execute, so a setup failure leaves no history written and no
module invoked. -/
def run (env : RunEnv) : RunResult :=
  match SetupInstanceID env.update with
  | (none, _) =>
    ⟨some (computeExitCode env.fatalFile env.fatalWriteFails 1).1, none, []⟩
  | (some instanceID, _) =>
    match env.config with
    | none => ⟨some (computeExitCode env.fatalFile env.fatalWriteFails 66).1, none, []⟩
    | some mods =>
      match ValidateAndIdentify mods with
      | .error _ => ⟨some (computeExitCode env.fatalFile env.fatalWriteFails 65).1, none, []⟩
      | .ok mods' =>
        let buckets := PrioritizeModules mods'
        if !env.dirsOk then
          ⟨some (computeExitCode env.fatalFile env.fatalWriteFails 73).1, none, []⟩
        else
          match env.historyRead with
          | none => ⟨some (computeExitCode env.fatalFile env.fatalWriteFails 1).1, none, []⟩
          | some history =>
            let r := processBuckets env.impl instanceID history buckets
            let h := buildHistory instanceID env.now r.1
            if !env.historyWriteOk then
              ⟨some (computeExitCode env.fatalFile env.fatalWriteFails 73).1, none, r.2.1⟩
            else if r.2.2 then
              ⟨some (computeExitCode env.fatalFile env.fatalWriteFails 1).1, some h, r.2.1⟩
            else ⟨none, some h, r.2.1⟩

/-! ## Atomic history write (lib/ec2macosinit/instancehistory.go, safeWrite)

The filesystem slice that `safeWrite` touches: the contents at the final
path and the temporary file it creates.  Failures of each syscall are
injected explicitly; a failed `Write` may leave a prefix of the data in the
temporary file. -/

/-- The two files `safeWrite` touches.  `target` is the contents at the
final path (`none` = no file); `temp` is this call's temporary file. -/
structure FsState where
  target : Option (List Nat)
  temp : Option (List Nat)
deriving DecidableEq

/-- Failure injection for one `safeWrite` call: `createOk` for
`os.CreateTemp`; `writeStops = some k` makes `f.Write` fail after `k` bytes
(`none` = full write); `syncOk` for `f.Sync`; `renameOk` for `os.Rename`. -/
structure WriteFaults where
  createOk : Bool
  writeStops : Option Nat
  syncOk : Bool
  renameOk : Bool
deriving DecidableEq

/-- Go `safeWrite` (instancehistory.go): create a temporary file in the
target's directory, write the bytes, `Sync`, then `Rename` over the final
path; the deferred `os.Remove(f.Name())` deletes the temporary file on
every path (after a successful rename it is already gone).  Returns whether
the call succeeded, the final filesystem state, and the intermediate
filesystem states after each step (what a concurrent reader could have
observed). -/
def safeWrite (st : FsState) (data : List Nat) (f : WriteFaults) :
    Bool × FsState × List FsState :=
  if !f.createOk then (false, st, [st])
  else
    let s1 : FsState := { st with temp := some [] }
    match f.writeStops with
    | some k => (false, { s1 with temp := none }, [s1, { s1 with temp := some (data.take k) }])
    | none =>
      let s2 : FsState := { s1 with temp := some data }
      if !f.syncOk then (false, { s2 with temp := none }, [s1, s2])
      else if !f.renameOk then (false, { s2 with temp := none }, [s1, s2])
      else (true, ⟨some data, none⟩, [s1, s2])

/-! ## IMDS client (lib/ec2macosinit/imds.go) -/

/-- Go struct `IMDSConfig` (imds.go). -/
structure IMDSConfig where
  token : String
  instanceID : String
deriving DecidableEq

/-- One HTTP exchange as seen by the IMDS client: the transport fails
(`client.Do` error), the response body cannot be read
(`ioReadCloserToString` error), or a status code and body are obtained. -/
inductive HttpResult where
  | fail
  | badBody (status : Nat)
  | resp (status : Nat) (body : String)
deriving DecidableEq

/-- Go `(i *IMDSConfig) getNewToken` (imds.go): PUT against the token
endpoint; any non-200 status is an error; otherwise the body becomes the
cached token. -/
def getNewToken (st : IMDSConfig) (tokenResp : HttpResult) : Except Unit IMDSConfig :=
  match tokenResp with
  | .fail => .error ()
  | .badBody _ => .error ()
  | .resp status body =>
    if status ≠ 200 then .error () else .ok { st with token := body }

/-- Go `(i *IMDSConfig) getIMDSProperty` (imds.go): acquire a token first
if none is cached, then GET the property; the status code is returned to
the caller but never checked here. -/
def getIMDSProperty (st : IMDSConfig) (tokenResp propResp : HttpResult) :
    Except Unit (String × Nat × IMDSConfig) :=
  match (if st.token = "" then getNewToken st tokenResp else .ok st) with
  | .error _ => .error ()
  | .ok st' =>
    match propResp with
    | .fail => .error ()
    | .badBody _ => .error ()
    | .resp status body => .ok (body, status, st')

/-- Go `(i *IMDSConfig) UpdateInstanceID` (imds.go): a no-op when an
instance id is already set; otherwise fetch `meta-data/instance-id`,
adopting the body whenever the fetch and body read succeeded, erroring only
when the fetch failed or the body was empty. -/
def UpdateInstanceID (st : IMDSConfig) (tokenResp propResp : HttpResult) :
    Except Unit IMDSConfig :=
  if st.instanceID ≠ "" then .ok st
  else
    match getIMDSProperty st tokenResp propResp with
    | .error _ => .error ()
    | .ok (v, _, st') =>
      if v = "" then .error () else .ok { st' with instanceID := v }

/-! ### Theorems about the crash-loop guard -/

/-- C2: for every requested nonzero exit code `e`, on the error-free path the
crash-loop guard returns 0 when the persisted fatal counter exceeds 100
(leaving the counter alone); otherwise it increments the persisted counter
and returns `e` unchanged; when the counter file is absent the counter is
treated as 1 (so the guard returns `e` and persists 2). -/
theorem computeExitCode_guard (e : Int) (_he : e ≠ 0) :
    (∀ c : Int, c > 100 →
      computeExitCode (.stored c) false e = (0, .stored c)) ∧
    (∀ c : Int, c ≤ 100 →
      computeExitCode (.stored c) false e = (e, .stored (c + 1))) ∧
    computeExitCode .absent false e = (e, .stored 2) := by
  refine ⟨fun c hc => ?_, fun c hc => ?_, ?_⟩
  · simp only [computeExitCode, RetriesExceeded, readFatalCount, PerBootFatalLimit,
      bind, Except.bind, pure, Except.pure]
    simp [hc]
  · simp only [computeExitCode, RetriesExceeded, readFatalCount, IncrementFatalCount,
      PerBootFatalLimit, bind, Except.bind, pure, Except.pure]
    rw [if_neg (by omega)]
    simp
  · rfl

/-- Witness for C2 at concrete inputs. -/
theorem computeExitCode_guard_witness :
    computeExitCode (.stored 101) false 73 = (0, .stored 101) ∧
    computeExitCode (.stored 5) false 73 = (73, .stored 6) ∧
    computeExitCode .absent false 73 = (73, .stored 2) :=
  ⟨(computeExitCode_guard 73 (by decide)).1 101 (by decide),
   (computeExitCode_guard 73 (by decide)).2.1 5 (by decide),
   (computeExitCode_guard 73 (by decide)).2.2⟩

/-- C9, counterexample: the claim says a failure to read the fatal-counter
file never changes the outcome and `computeExitCode` still returns the
requested code.  At requested code 66 with an unreadable counter file the
code instead returns 1. -/
theorem computeExitCode_readError_cex :
    computeExitCode .unreadable false 66 = (1, .unreadable) ∧ (1 : Int) ≠ 66 := by
  exact ⟨rfl, by decide⟩

/-- C9, amended: a failure to *write* the counter is only logged and
`computeExitCode` still returns the requested code `e` (with the file left
unchanged), but a failure to *read* the counter makes `computeExitCode`
return 1 in place of the requested code. -/
theorem computeExitCode_counterErrors (e : Int) :
    (∀ w : Bool, computeExitCode .unreadable w e = (1, .unreadable)) ∧
    (∀ c : Int, c ≤ 100 →
      computeExitCode (.stored c) true e = (e, .stored c)) ∧
    (computeExitCode .absent true e = (e, .absent)) := by
  refine ⟨fun w => rfl, fun c hc => ?_, rfl⟩
  simp only [computeExitCode, RetriesExceeded, readFatalCount, IncrementFatalCount,
    PerBootFatalLimit, bind, Except.bind, pure, Except.pure]
  rw [if_neg (by omega)]
  simp

/-- Witness for C9's amended statement at concrete inputs. -/
theorem computeExitCode_counterErrors_witness :
    computeExitCode .unreadable true 66 = (1, .unreadable) ∧
    computeExitCode (.stored 7) true 66 = (66, .stored 7) :=
  ⟨(computeExitCode_counterErrors 66).1 true,
   (computeExitCode_counterErrors 66).2.1 7 (by decide)⟩

/-! ### Theorems about the run-type gate (C1) -/

/-- The claim's reading of the gate's decision table, stated with its
quantifier "some history entry whose InstanceID equals the current instance
id contains a record with the module's history key and success true" —
written from the claim to compare with the source's `ShouldRun`. -/
def shouldRunClaim (m : Module) (instanceID : String) (history : List History) : Bool :=
  if m.runPerBoot then true
  else if m.runPerInstance then
    !(history.any fun inst => inst.instanceID == instanceID &&
        inst.moduleHistories.any fun mh => generateHistoryKey m == mh.key && mh.success)
  else if m.runOnce then
    !(history.any fun inst =>
        inst.moduleHistories.any fun mh => generateHistoryKey m == mh.key && mh.success)
  else false

/-- A `RunPerInstance` module of priority 1, type command, name A. -/
def modC1 : Module :=
  ⟨"command", false, "A", 1, false, false, false, true, ⟨["echo"], "", []⟩,
    .empty, .empty, .empty⟩

/-- A history list with two entries for the same instance id: the first has
no records, the second holds the module's key with success true. -/
def histC1 : List History :=
  [⟨"i-1", 0, [], 1⟩, ⟨"i-1", 0, [⟨"1_RunPerInstance_command_A", true⟩], 1⟩]

/-- C1, counterexample: on a history list with two entries bearing the
current instance id, the source's `ShouldRun` stops at the *first* matching
entry and runs the module, while the claim's table (a successful record
under *some* matching entry suppresses it) says false. -/
theorem shouldRun_claim_cex :
    ShouldRun modC1 "i-1" histC1 = true ∧ shouldRunClaim modC1 "i-1" histC1 = false := by
  decide

/-- C1, amended run-type decision table: `RunPerBoot` always runs; with
`RunPerInstance` set, `ShouldRun` consults only the *first* history entry
whose InstanceID equals the current instance id (entries of other instances,
and later entries of the same instance, never suppress it) and returns false
iff that entry has a record with the module's key and success true, else
true; with `RunOnce` set it returns false iff any entry of any instance has
such a record; with no run-type flag set it returns false. -/
theorem shouldRun_characterization (m : Module) (id : String) (h : List History) :
    (m.runPerBoot = true → ShouldRun m id h = true) ∧
    (m.runPerBoot = false → m.runPerInstance = true →
      ((∀ inst, h.find? (fun i => id == i.instanceID) = some inst →
          (ShouldRun m id h = false ↔
            ∃ r ∈ inst.moduleHistories,
              generateHistoryKey m = r.key ∧ r.success = true)) ∧
        (h.find? (fun i => id == i.instanceID) = none → ShouldRun m id h = true))) ∧
    (m.runPerBoot = false → m.runPerInstance = false → m.runOnce = true →
      (ShouldRun m id h = false ↔
        ∃ inst ∈ h, ∃ r ∈ inst.moduleHistories,
          generateHistoryKey m = r.key ∧ r.success = true)) ∧
    (m.runPerBoot = false → m.runPerInstance = false → m.runOnce = false →
      ShouldRun m id h = false) := by
  refine ⟨fun hb => by simp [ShouldRun, hb], fun hb hp => ⟨fun inst hfind => ?_, fun hfind => ?_⟩,
    fun hb hp ho => ?_, fun hb hp ho => by simp [ShouldRun, hb, hp, ho]⟩
  · simp [ShouldRun, hb, hp, hfind, List.any_eq_true]
  · simp [ShouldRun, hb, hp, hfind]
  · simp [ShouldRun, hb, hp, ho, List.any_eq_true]

/-- Witness for C1's amended table at concrete inputs: a `RunOnce` module
is suppressed by a successful record under a *different* instance id, and a
`RunPerBoot` module always runs. -/
theorem shouldRun_characterization_witness :
    ShouldRun ⟨"command", false, "A", 1, false, true, false, false,
        ⟨["echo"], "", []⟩, .empty, .empty, .empty⟩ "i-b"
      [⟨"i-a", 0, [⟨"1_RunOnce_command_A", true⟩], 1⟩] = false :=
  ((shouldRun_characterization _ "i-b" _).2.2.1 rfl rfl rfl).mpr
    ⟨⟨"i-a", 0, [⟨"1_RunOnce_command_A", true⟩], 1⟩, by decide,
      ⟨"1_RunOnce_command_A", true⟩, by decide, by decide, rfl⟩

/-! ### Theorems about the IMDS client (C10) -/

/-- C10: `UpdateInstanceID` never inspects the HTTP status of the
instance-id fetch.  With no instance id yet set: (1) it errors exactly when
a token was needed and could not be acquired, the property transport
failed, the body could not be read, or the body was empty; (2) whenever the
response carries a non-empty body it succeeds and adopts the body as the
instance id, whatever the status; (3) two responses differing only in
status yield identical results. -/
theorem updateInstanceID_status_blind (st : IMDSConfig) (hid : st.instanceID = "")
    (tokenResp propResp : HttpResult) :
    ((UpdateInstanceID st tokenResp propResp).isOk = false ↔
      (st.token = "" ∧ (getNewToken st tokenResp).isOk = false) ∨
      propResp = .fail ∨ (∃ s, propResp = .badBody s) ∨ (∃ s, propResp = .resp s "")) ∧
    (∀ status body st', body ≠ "" →
      (if st.token = "" then getNewToken st tokenResp else .ok st) = .ok st' →
      UpdateInstanceID st tokenResp (.resp status body) = .ok { st' with instanceID := body }) ∧
    (∀ s₁ s₂ body, UpdateInstanceID st tokenResp (.resp s₁ body) =
      UpdateInstanceID st tokenResp (.resp s₂ body)) := by
  have hgo : ∀ pr, UpdateInstanceID st tokenResp pr =
      match getIMDSProperty st tokenResp pr with
      | .error _ => .error ()
      | .ok (v, _, st') => if v = "" then .error () else .ok { st' with instanceID := v } := by
    intro pr
    simp [UpdateInstanceID, hid]
  cases htok : (if st.token = "" then getNewToken st tokenResp else Except.ok st) with
  | error e =>
    have htokFail : st.token = "" ∧ (getNewToken st tokenResp).isOk = false := by
      by_cases ht : st.token = ""
      · rw [if_pos ht] at htok
        exact ⟨ht, by simp [htok, Except.isOk, Except.toBool]⟩
      · rw [if_neg ht] at htok
        exact absurd htok (by simp)
    refine ⟨?_, ?_, ?_⟩
    · simp only [hgo, getIMDSProperty, htok, Except.isOk, Except.toBool]
      exact ⟨fun _ => .inl htokFail, fun _ => trivial⟩
    · intro status body st' _ h'
      exact absurd h' (by simp)
    · intro s₁ s₂ body
      simp [hgo, getIMDSProperty, htok]
  | ok st' =>
    have htokOk : ¬(st.token = "" ∧ (getNewToken st tokenResp).isOk = false) := by
      rintro ⟨ht, hf⟩
      rw [if_pos ht] at htok
      simp [htok, Except.isOk, Except.toBool] at hf
    refine ⟨?_, ?_, ?_⟩
    · cases propResp with
      | fail =>
        simp only [hgo, getIMDSProperty, htok, Except.isOk, Except.toBool]
        simp
      | badBody s =>
        simp only [hgo, getIMDSProperty, htok, Except.isOk, Except.toBool]
        simp
      | resp s body =>
        by_cases hb : body = ""
        · subst hb
          simp only [hgo, getIMDSProperty, htok, Except.isOk, Except.toBool]
          simp
        · simp only [hgo, getIMDSProperty, htok, Except.isOk, Except.toBool]
          simp only [if_neg hb]
          constructor
          · intro hfalse
            exact absurd hfalse (by simp)
          · rintro (h | h | ⟨t, h⟩ | ⟨t, h⟩)
            · exact absurd h htokOk
            · exact absurd h (by simp)
            · exact absurd h (by simp)
            · rw [HttpResult.resp.injEq] at h
              exact absurd h.2 hb
    · intro status body st'' hb h'
      have : st' = st'' := by injection h'
      subst this
      simp [hgo, getIMDSProperty, htok, if_neg hb]
    · intro s₁ s₂ body
      simp [hgo, getIMDSProperty, htok]

/-- Witness for C10 at concrete inputs: with a cached token, a 500 response
whose body is `i-xyz` is adopted as the instance id; a transport failure
errors. -/
theorem updateInstanceID_status_blind_witness :
    UpdateInstanceID ⟨"tok", ""⟩ .fail (.resp 500 "i-xyz") = .ok ⟨"tok", "i-xyz"⟩ ∧
    (UpdateInstanceID ⟨"tok", ""⟩ .fail .fail).isOk = false :=
  ⟨(updateInstanceID_status_blind ⟨"tok", ""⟩ rfl .fail (.resp 500 "i-xyz")).2.1
      500 "i-xyz" ⟨"tok", ""⟩ (by decide) (by rfl),
   (updateInstanceID_status_blind ⟨"tok", ""⟩ rfl .fail .fail).1.mpr (.inr (.inl rfl))⟩

/-! ### Theorems about module type identification (C7) -/

/-- A module declaration whose `Command` *and* `SSHKeys` sub-configurations
are both non-default. -/
def modC7 : Module :=
  ⟨"", false, "B", 1, false, true, false, false, ⟨["x"], "", []⟩,
    ⟨false, false, [], false, "u"⟩, .empty, .empty⟩

/-- C7, counterexample: the claim says `identifyModule` errors when more
than one sub-configuration is non-default; on a declaration with both the
command and sshkeys sub-configurations non-default the code instead
succeeds and assigns the tag `command`. -/
theorem identifyModule_multi_cex :
    modC7.commandModule ≠ CommandModule.empty ∧
    modC7.sshKeysModule ≠ SSHKeysModule.empty ∧
    identifyModule modC7 = .ok { modC7 with type := "command" } := by
  refine ⟨by decide, by decide, ?_⟩
  rfl

/-- C7, amended: `identifyModule` returns an error exactly when *all*
sub-configurations are default; otherwise it assigns the tag of the first
non-default sub-configuration in the fixed order command, sshkeys,
userdata, networkcheck — in particular, when exactly one is non-default the
assigned tag is that one's; multiple non-defaults are not rejected. -/
theorem identifyModule_characterization (m : Module) :
    (m.commandModule = CommandModule.empty → m.sshKeysModule = SSHKeysModule.empty →
      m.userDataModule = UserDataModule.empty →
      m.networkCheckModule = NetworkCheckModule.empty →
      identifyModule m = .error "ec2macosinit: unable to identify module type") ∧
    (m.commandModule ≠ CommandModule.empty →
      identifyModule m = .ok { m with type := "command" }) ∧
    (m.commandModule = CommandModule.empty → m.sshKeysModule ≠ SSHKeysModule.empty →
      identifyModule m = .ok { m with type := "sshkeys" }) ∧
    (m.commandModule = CommandModule.empty → m.sshKeysModule = SSHKeysModule.empty →
      m.userDataModule ≠ UserDataModule.empty →
      identifyModule m = .ok { m with type := "userdata" }) ∧
    (m.commandModule = CommandModule.empty → m.sshKeysModule = SSHKeysModule.empty →
      m.userDataModule = UserDataModule.empty →
      m.networkCheckModule ≠ NetworkCheckModule.empty →
      identifyModule m = .ok { m with type := "networkcheck" }) := by
  refine ⟨fun h1 h2 h3 h4 => ?_, fun h1 => ?_, fun h1 h2 => ?_,
    fun h1 h2 h3 => ?_, fun h1 h2 h3 h4 => ?_⟩
  · simp [identifyModule, h1, h2, h3, h4]
  · simp [identifyModule, h1]
  · simp [identifyModule, h1, h2]
  · simp [identifyModule, h1, h2, h3]
  · simp [identifyModule, h1, h2, h3, h4]

/-- Witness for C7's amended statement: a declaration whose only
non-default sub-configuration is `UserData` gets the tag `userdata`. -/
theorem identifyModule_characterization_witness :
    identifyModule ⟨"", false, "U", 2, false, true, false, false, .empty, .empty,
        ⟨true⟩, .empty⟩ =
      .ok ⟨"userdata", false, "U", 2, false, true, false, false, .empty, .empty,
        ⟨true⟩, .empty⟩ :=
  (identifyModule_characterization _).2.2.2.1 (by decide) (by decide) (by decide)

/-! ### Theorems about the atomic history write (C4) -/

/-- C4: `safeWrite` is atomic.  Starting from a state whose (fresh)
temporary file does not yet exist: on any error the final path's contents
are unchanged and the temporary file is gone; on success the final path
holds exactly the new bytes; and in every intermediate state a reader of
the final path sees the prior contents — never a partial or zero-byte
write. -/
theorem safeWrite_atomic (st : FsState) (h0 : st.temp = none) (data : List Nat)
    (f : WriteFaults) :
    ((safeWrite st data f).1 = false → (safeWrite st data f).2.1 = ⟨st.target, none⟩) ∧
    ((safeWrite st data f).1 = true → (safeWrite st data f).2.1 = ⟨some data, none⟩) ∧
    (∀ s ∈ (safeWrite st data f).2.2, s.target = st.target) := by
  obtain ⟨t, tmp⟩ := st
  simp only at h0
  subst h0
  obtain ⟨co, ws, so, ro⟩ := f
  cases co <;> cases ws <;> cases so <;> cases ro <;>
    simp [safeWrite]

/-- Witness for C4 at concrete inputs: a failed sync leaves the old
contents and no temporary file; a clean run installs the new bytes; no
intermediate state shows the new target early. -/
theorem safeWrite_atomic_witness :
    (safeWrite ⟨some [1, 2], none⟩ [3, 4, 5] ⟨true, none, false, true⟩).2.1 =
        ⟨some [1, 2], none⟩ ∧
    (safeWrite ⟨some [1, 2], none⟩ [3, 4, 5] ⟨true, none, true, true⟩).2.1 =
        ⟨some [3, 4, 5], none⟩ ∧
    ((safeWrite ⟨some [1, 2], none⟩ [3, 4, 5]
        ⟨true, some 1, true, true⟩).2.2.getD 1 ⟨none, none⟩).target = some [1, 2] :=
  ⟨(safeWrite_atomic ⟨some [1, 2], none⟩ rfl [3, 4, 5] ⟨true, none, false, true⟩).1
      (by decide),
   (safeWrite_atomic ⟨some [1, 2], none⟩ rfl [3, 4, 5] ⟨true, none, true, true⟩).2.1
      (by decide),
   (safeWrite_atomic ⟨some [1, 2], none⟩ rfl [3, 4, 5] ⟨true, some 1, true, true⟩).2.2
      _ (by decide)⟩

/-! ### Theorems about the identity probe (C3) -/

/-- When every call to `UpdateInstanceID` fails, the retry loop starting at
counter value `attempt ≤ 601` makes exactly `602 - attempt` further calls
and then gives up: the guard `attempt > 600` is tested before `attempt++`,
so counter values `0, ..., 600` all pass the guard and the loop only stops
at counter value 601. -/
theorem setupFrom_allFail (update : Nat → Option String) (h : ∀ n, update n = none) :
    ∀ fuel attempt calls, setupMaxAttempts + 1 - attempt ≤ fuel →
      attempt ≤ setupMaxAttempts + 1 →
      SetupInstanceIDFrom update attempt calls =
        (none, calls + (setupMaxAttempts + 2 - attempt)) := by
  intro fuel
  induction fuel with
  | zero =>
    intro attempt calls hf ha
    have h601 : attempt = setupMaxAttempts + 1 := by
      simp only [setupMaxAttempts] at *
      omega
    rw [SetupInstanceIDFrom, h calls]
    rw [if_pos (by simp only [h601, setupMaxAttempts]; omega)]
    simp only [h601, setupMaxAttempts]
  | succ fuel ih =>
    intro attempt calls hf ha
    by_cases hgt : attempt > setupMaxAttempts
    · have h601 : attempt = setupMaxAttempts + 1 := by
        simp only [setupMaxAttempts] at *
        omega
      rw [SetupInstanceIDFrom, h calls]
      rw [if_pos hgt]
      simp only [h601, setupMaxAttempts]
    · rw [SetupInstanceIDFrom, h calls]
      rw [if_neg hgt]
      rw [ih (attempt + 1) (calls + 1) (by simp only [setupMaxAttempts] at *; omega)
        (by simp only [setupMaxAttempts] at *; omega)]
      simp only [setupMaxAttempts] at *
      rw [Prod.mk.injEq]
      exact ⟨rfl, by omega⟩

/-- A run environment in which IMDS never yields an instance id. -/
def envC3 : RunEnv :=
  ⟨fun _ => none, some [], true, some [], fun _ => true, .absent, false, true, 0⟩

/-- C3, counterexample: with IMDS never yielding an id, the probe makes 602
calls (not 600: the guard `attempt > 600` runs before the counter is
incremented), and `run` requests exit code 1 through the crash-loop guard
(not 75); with the counter file absent the process exits 1. -/
theorem setupInstanceID_cex :
    SetupInstanceID (fun _ => none) = (none, 602) ∧ (602 : Nat) ≠ 600 ∧
    (run envC3).exit = some 1 ∧ (1 : Int) ≠ 75 := by
  have hs : SetupInstanceID (fun _ => none) = (none, 602) := by
    rw [SetupInstanceID,
      setupFrom_allFail (fun _ => none) (fun _ => rfl) (setupMaxAttempts + 1) 0 0
        (by omega) (by omega)]
    decide
  refine ⟨hs, by decide, ?_, by decide⟩
  show (run envC3).exit = some 1
  rw [run]
  rw [show envC3.update = (fun _ => none) from rfl, hs]
  rfl

/-- C3, amended: if the instance-metadata service never yields an instance
id, `SetupInstanceID` gives up after exactly 602 attempts spaced 1 second
apart (the guard `attempt > 600` is checked before the counter increments),
and `run` exits through the crash-loop guard with requested code 1 — not
75 — having invoked no module and written no history. -/
theorem setupInstanceID_exhaustion (env : RunEnv) (h : ∀ n, env.update n = none) :
    SetupInstanceID env.update = (none, 602) ∧
    run env = ⟨some (computeExitCode env.fatalFile env.fatalWriteFails 1).1, none, []⟩ := by
  have hs : SetupInstanceID env.update = (none, 602) := by
    rw [SetupInstanceID,
      setupFrom_allFail env.update h (setupMaxAttempts + 1) 0 0 (by omega) (by omega)]
    decide
  refine ⟨hs, ?_⟩
  rw [run, hs]

/-- Witness for C3's amended statement: on the concrete environment the
process exits 1 with no history written and no module invoked. -/
theorem setupInstanceID_exhaustion_witness :
    run envC3 = ⟨some 1, none, []⟩ := by
  rw [(setupInstanceID_exhaustion envC3 (fun _ => rfl)).2]
  rfl

/-! ### Theorems about priority bucketing (C5) -/

/-- The maximum priority among a list of modules (0 when empty), as the
bucket sequence's final length. -/
def MaxPriority (ms : List Module) : Nat :=
  ms.foldl (fun acc m => max acc m.priorityGroup.toNat) 0

theorem getD_set_self {α : Type} (d : α) :
    ∀ (l : List α) (i : Nat) (a : α), i < l.length → (l.set i a).getD i d = a := by
  intro l
  induction l with
  | nil => intro i a h; simp at h
  | cons x xs ih =>
    intro i a h
    cases i with
    | zero => rfl
    | succ j =>
      simp only [List.set, List.getD, List.getElem?_cons_succ]
      exact ih j a (by simpa using h)

theorem getD_set_ne {α : Type} (d : α) :
    ∀ (l : List α) (i j : Nat) (a : α), i ≠ j → (l.set i a).getD j d = l.getD j d := by
  intro l
  induction l with
  | nil => intro i j a _; simp [List.set]
  | cons x xs ih =>
    intro i j a hij
    cases i with
    | zero =>
      cases j with
      | zero => exact absurd rfl hij
      | succ j' => rfl
    | succ i' =>
      cases j with
      | zero => rfl
      | succ j' =>
        simp only [List.set, List.getD, List.getElem?_cons_succ]
        exact ih i' j' a (fun hh => hij (by rw [hh]))

theorem getD_replicate_nil {α : Type} :
    ∀ (k i : Nat), (List.replicate k ([] : List α)).getD i [] = [] := by
  intro k
  induction k with
  | zero => intro i; rfl
  | succ k ih =>
    intro i
    cases i with
    | zero => rfl
    | succ j =>
      simp only [List.replicate, List.getD, List.getElem?_cons_succ]
      exact ih j

theorem getD_append_replicate_nil {α : Type} :
    ∀ (bs : List (List α)) (k i : Nat),
      (bs ++ List.replicate k ([] : List α)).getD i [] = bs.getD i [] := by
  intro bs
  induction bs with
  | nil =>
    intro k i
    simp only [List.nil_append]
    rw [getD_replicate_nil]
    cases i <;> rfl
  | cons b bs ih =>
    intro k i
    cases i with
    | zero => rfl
    | succ j =>
      simp only [List.cons_append, List.getD, List.getElem?_cons_succ]
      exact ih k j

theorem bucketAdd_length (bs : List (List Module)) (m : Module) :
    (bucketAdd bs m).length = max bs.length m.priorityGroup.toNat := by
  simp only [bucketAdd, List.length_set, List.length_append, List.length_replicate]
  omega

theorem bucketAdd_getD (bs : List (List Module)) (m : Module)
    (hp : 1 ≤ m.priorityGroup) (i : Nat) :
    (bucketAdd bs m).getD i [] =
      bs.getD i [] ++ (if m.priorityGroup = (i : Int) + 1 then [m] else []) := by
  have hp1 : 1 ≤ m.priorityGroup.toNat := by omega
  by_cases hi : m.priorityGroup.toNat - 1 = i
  · have hcond : m.priorityGroup = (i : Int) + 1 := by omega
    rw [if_pos hcond]
    simp only [bucketAdd]
    rw [← hi, getD_set_self]
    · rw [getD_append_replicate_nil]
    · simp only [List.length_append, List.length_replicate]
      omega
  · have hcond : ¬(m.priorityGroup = (i : Int) + 1) := by omega
    rw [if_neg hcond]
    simp only [bucketAdd]
    rw [getD_set_ne _ _ _ _ _ hi, getD_append_replicate_nil, List.append_nil]

theorem maxPriority_foldl_init (ms : List Module) :
    ∀ a : Nat, ms.foldl (fun acc m => max acc m.priorityGroup.toNat) a =
      max a (ms.foldl (fun acc m => max acc m.priorityGroup.toNat) 0) := by
  induction ms with
  | nil => intro a; simp
  | cons m ms ih =>
    intro a
    rw [List.foldl_cons, List.foldl_cons, ih (max a m.priorityGroup.toNat),
      ih (max 0 m.priorityGroup.toNat)]
    omega

theorem prioritize_foldl_spec :
    ∀ (ms : List Module) (bs : List (List Module)), (∀ m ∈ ms, 1 ≤ m.priorityGroup) →
      ((ms.foldl bucketAdd bs).length = max bs.length (MaxPriority ms)) ∧
      ∀ i, (ms.foldl bucketAdd bs).getD i [] =
        bs.getD i [] ++ ms.filter (fun m => m.priorityGroup == (i : Int) + 1) := by
  intro ms
  induction ms with
  | nil =>
    intro bs _
    constructor
    · simp [MaxPriority]
    · intro i
      simp
  | cons m ms ih =>
    intro bs h
    have hp : 1 ≤ m.priorityGroup := h m (by simp)
    have hms : ∀ x ∈ ms, 1 ≤ x.priorityGroup := fun x hx => h x (by simp [hx])
    obtain ⟨ihl, ihg⟩ := ih (bucketAdd bs m) hms
    constructor
    · rw [List.foldl_cons, ihl, bucketAdd_length]
      have : MaxPriority (m :: ms) = max m.priorityGroup.toNat (MaxPriority ms) := by
        simp only [MaxPriority, List.foldl_cons]
        rw [maxPriority_foldl_init]
        simp
      omega
    · intro i
      rw [List.foldl_cons, ihg i, bucketAdd_getD bs m hp i]
      rw [List.append_assoc]
      congr 1
      by_cases hc : m.priorityGroup = (i : Int) + 1
      · rw [if_pos hc, List.filter_cons_of_pos (by simpa using hc)]
        rfl
      · rw [if_neg hc, List.filter_cons_of_neg (by simpa using hc)]
        rfl

/-- C5: priority bucketing.  For validated modules (priority at least 1):
the bucket sequence's length equals the maximum priority among the modules;
bucket `i` (zero-based) holds exactly the modules of priority `i + 1`, in
input order — so every module of priority `p` lands in bucket `p - 1`,
buckets for priorities with no module are present but empty, and every
module appears in exactly one bucket. -/
theorem prioritizeModules_spec (ms : List Module) (h : ∀ m ∈ ms, 1 ≤ m.priorityGroup) :
    (PrioritizeModules ms).length = MaxPriority ms ∧
    (∀ i, (PrioritizeModules ms).getD i [] =
      ms.filter (fun m => m.priorityGroup == (i : Int) + 1)) ∧
    (∀ m ∈ ms, m ∈ (PrioritizeModules ms).getD (m.priorityGroup.toNat - 1) []) ∧
    (∀ m i, m ∈ (PrioritizeModules ms).getD i [] → (i : Int) = m.priorityGroup - 1) := by
  obtain ⟨hl, hg⟩ := prioritize_foldl_spec ms [] h
  have hchar : ∀ i, (PrioritizeModules ms).getD i [] =
      ms.filter (fun m => m.priorityGroup == (i : Int) + 1) := by
    intro i
    have := hg i
    simpa [PrioritizeModules] using this
  refine ⟨by simpa [PrioritizeModules] using hl, hchar, ?_, ?_⟩
  · intro m hm
    rw [hchar]
    rw [List.mem_filter]
    refine ⟨hm, ?_⟩
    have := h m hm
    simp only [beq_iff_eq]
    omega
  · intro m i hmi
    rw [hchar] at hmi
    rw [List.mem_filter] at hmi
    have := hmi.2
    simp only [beq_iff_eq] at this
    omega

/-- Two concrete validated modules of priorities 1 and 3. -/
def modP1 : Module :=
  ⟨"command", false, "A", 1, false, false, true, false, ⟨["a"], "", []⟩,
    .empty, .empty, .empty⟩

/-- See `modP1`; priority 3. -/
def modP3 : Module :=
  ⟨"command", false, "C", 3, false, false, true, false, ⟨["c"], "", []⟩,
    .empty, .empty, .empty⟩

/-- Witness for C5: with priorities 1 and 3 present, three buckets are
produced, the middle one empty, and each module sits in its own bucket. -/
theorem prioritizeModules_spec_witness :
    (PrioritizeModules [modP1, modP3]).length = 3 ∧
    (PrioritizeModules [modP1, modP3]).getD 1 [] = [] ∧
    modP3 ∈ (PrioritizeModules [modP1, modP3]).getD 2 [] := by
  obtain ⟨hl, hg, hmem, _⟩ := prioritizeModules_spec [modP1, modP3] (by decide)
  refine ⟨by rw [hl]; rfl, by rw [hg 1]; rfl, ?_⟩
  have := hmem modP3 (by simp)
  simpa using this

/-! ### Theorems about the scheduler's treatment of gated-out modules (C8) -/

theorem getD_mem_of_ne_default {α : Type} :
    ∀ (l : List α) (i : Nat) (d : α), l.getD i d ≠ d → l.getD i d ∈ l := by
  intro l
  induction l with
  | nil => intro i d h; exact absurd (by cases i <;> rfl) h
  | cons x xs ih =>
    intro i d h
    cases i with
    | zero => exact .head _
    | succ j =>
      have : xs.getD j d ≠ d := by
        simpa [List.getD] using h
      exact .tail _ (ih j d this)

/-- If no bucket before index `i` triggered the aggregate-fatal break, the
scheduler's output at index `i` is bucket `i` processed (both sides are `[]`
when `i` is out of range). -/
theorem processBuckets_getD (impl : Module → Bool) (id : String) (hist : List History) :
    ∀ (buckets : List (List Module)) (i : Nat),
      (processBuckets impl id hist (List.take i buckets)).2.2 = false →
      (processBuckets impl id hist buckets).1.getD i [] =
        (processBucket impl id hist (buckets.getD i [])).1 := by
  intro buckets
  induction buckets with
  | nil =>
    intro i _
    cases i <;> rfl
  | cons b rest ih =>
    intro i hreach
    cases i with
    | zero =>
      by_cases hr : (processBucket impl id hist b).2.2
      · simp [processBuckets, hr]
      · simp [processBuckets, hr]
    | succ j =>
      rw [List.take_succ_cons] at hreach
      cases hr : (processBucket impl id hist b).2.2 with
      | true =>
        exfalso
        simp [processBuckets, hr] at hreach
      | false =>
        have hrest : (processBuckets impl id hist (List.take j rest)).2.2 = false := by
          by_contra hc
          rw [Bool.not_eq_false] at hc
          simp [processBuckets, hr, hc] at hreach
        have hih := ih j hrest
        calc (processBuckets impl id hist (b :: rest)).1.getD (j + 1) []
            = (processBuckets impl id hist rest).1.getD j [] := by
              simp [processBuckets, hr]
          _ = (processBucket impl id hist ((b :: rest).getD (j + 1) [])).1 := by
              rw [hih, List.getD_cons_succ]

/-- Every module occurrence in the scheduler's output buckets contributes
its record (key, success flag) to the history value that is written. -/
theorem mem_buildHistory (id : String) (now : Nat) (buckets : List (List Module))
    (x : Module) (i : Nat) (hx : x ∈ buckets.getD i []) :
    (⟨generateHistoryKey x, x.success⟩ : ModuleHistory) ∈
      (buildHistory id now buckets).moduleHistories := by
  have hbkt : buckets.getD i [] ∈ buckets ∨ buckets.getD i [] = [] := by
    by_cases hd : buckets.getD i [] = []
    · exact .inr hd
    · exact .inl (getD_mem_of_ne_default buckets i [] hd)
  rcases hbkt with hb | hb
  · simp only [buildHistory]
    exact List.mem_map_of_mem _ (List.mem_flatten.mpr ⟨buckets.getD i [], hb, hx⟩)
  · rw [hb] at hx
    exact absurd hx (List.not_mem_nil x)

/-- C8: for every module whose gate returns false, reached by the scheduler
(no earlier bucket triggered the aggregate-fatal break): its task marks the
success flag true *without* invoking the implementation, the processed
bucket contains the marked module, and the history written at end of run
contains the record (module's key, success true). -/
theorem skipped_module_success (impl : Module → Bool) (id : String) (hist : List History)
    (now : Nat) (buckets : List (List Module)) (i : Nat) (m : Module)
    (hm : m ∈ buckets.getD i [])
    (hgate : ShouldRun m id hist = false)
    (hreach : (processBuckets impl id hist (List.take i buckets)).2.2 = false) :
    processModule impl id hist m = ({ m with success := true }, false, false) ∧
    { m with success := true } ∈ (processBuckets impl id hist buckets).1.getD i [] ∧
    (⟨generateHistoryKey m, true⟩ : ModuleHistory) ∈
      (buildHistory id now (processBuckets impl id hist buckets).1).moduleHistories := by
  have hpm : processModule impl id hist m = ({ m with success := true }, false, false) := by
    simp [processModule, hgate]
  have hGet := processBuckets_getD impl id hist buckets i hreach
  have hmem : { m with success := true } ∈ (processBuckets impl id hist buckets).1.getD i [] := by
    rw [hGet]
    simp only [processBucket, List.map_map]
    refine List.mem_map.mpr ⟨m, hm, ?_⟩
    simp [hpm]
  refine ⟨hpm, hmem, ?_⟩
  have := mem_buildHistory id now (processBuckets impl id hist buckets).1
    { m with success := true } i hmem
  simpa using this

/-- A `RunOnce` module suppressed by a record from another instance. -/
def modC8 : Module :=
  ⟨"command", false, "A", 1, false, true, false, false, ⟨["echo"], "", []⟩,
    .empty, .empty, .empty⟩

/-- History holding `modC8`'s key with success true under instance `i-2`. -/
def histC8 : List History := [⟨"i-2", 0, [⟨"1_RunOnce_command_A", true⟩], 1⟩]

/-- Witness for C8: on instance `i-1`, the gated-out module's task sets
success without dispatching (even though the implementation would fail),
and the written history carries its key with success true. -/
theorem skipped_module_success_witness :
    processModule (fun _ => false) "i-1" histC8 modC8 =
      ({ modC8 with success := true }, false, false) ∧
    (⟨"1_RunOnce_command_A", true⟩ : ModuleHistory) ∈
      (buildHistory "i-1" 0
        (processBuckets (fun _ => false) "i-1" histC8 [[modC8]]).1).moduleHistories := by
  obtain ⟨h1, _, h3⟩ := skipped_module_success (fun _ => false) "i-1" histC8 0
    [[modC8]] 0 modC8 (by decide) (by decide) (by rfl)
  have hk : generateHistoryKey modC8 = "1_RunOnce_command_A" := by decide
  rw [hk] at h3
  exact ⟨h1, h3⟩

/-! ### Theorems about the history key (C6)

The key is `<priority>_<runType>_<typeTag>_<name>`: the first three segments
never contain an underscore (decimal digits; one of three fixed run-type
words; one of four fixed tags), so splitting at the first three underscores
recovers the tuple and the key is injective over it. -/

theorem digitChar_ne_underscore (d : Nat) : digitChar d ≠ '_' := by
  rcases d with _|_|_|_|_|_|_|_|_|_|d
  all_goals first
    | decide
    | exact (show ('*' : Char) ≠ '_' by decide)

theorem digitChar_inj (d₁ d₂ : Nat) (h₁ : d₁ < 10) (h₂ : d₂ < 10)
    (h : digitChar d₁ = digitChar d₂) : d₁ = d₂ := by
  interval_cases d₁ <;> interval_cases d₂ <;> simp_all [digitChar]

theorem map_digitChar_inj :
    ∀ (l₁ l₂ : List Nat), (∀ d ∈ l₁, d < 10) → (∀ d ∈ l₂, d < 10) →
      l₁.map digitChar = l₂.map digitChar → l₁ = l₂ := by
  intro l₁
  induction l₁ with
  | nil =>
    intro l₂ _ _ h
    cases l₂ with
    | nil => rfl
    | cons d ds => simp at h
  | cons d ds ih =>
    intro l₂ h₁ h₂ h
    cases l₂ with
    | nil => simp at h
    | cons e es =>
      simp only [List.map_cons, List.cons.injEq] at h
      have hd : d = e := digitChar_inj d e (h₁ d (by simp)) (h₂ e (by simp)) h.1
      have hds : ds = es := ih es (fun x hx => h₁ x (by simp [hx]))
        (fun x hx => h₂ x (by simp [hx])) h.2
      rw [hd, hds]

theorem toDigitsAux_eq_digits :
    ∀ fuel n, n ≤ fuel →
      toDigitsAux fuel n = ((Nat.digits 10 n).reverse).map digitChar := by
  intro fuel
  induction fuel with
  | zero =>
    intro n hn
    interval_cases n
    simp [toDigitsAux]
  | succ fuel ih =>
    intro n hn
    cases n with
    | zero => simp [toDigitsAux]
    | succ m =>
      rw [toDigitsAux]
      have hdiv : (m + 1) / 10 ≤ fuel := by
        have := Nat.div_lt_self (Nat.succ_pos m) (by norm_num : 1 < 10)
        omega
      rw [ih ((m + 1) / 10) hdiv]
      rw [Nat.digits_def' (by norm_num : 1 < 10) (Nat.succ_pos m)]
      simp

theorem underscore_not_mem_natRepr (n : Nat) : '_' ∉ natRepr n := by
  by_cases h0 : n = 0
  · simp [natRepr, h0]
  · rw [natRepr, if_neg h0, toDigitsAux_eq_digits n n le_rfl]
    intro hmem
    obtain ⟨d, _, hd⟩ := List.mem_map.mp hmem
    exact digitChar_ne_underscore d hd

theorem natRepr_inj (n m : Nat) (h : natRepr n = natRepr m) : n = m := by
  have digitsLt : ∀ k, ∀ d ∈ (Nat.digits 10 k).reverse, d < 10 := by
    intro k d hd
    exact Nat.digits_lt_base (by norm_num) (List.mem_reverse.mp hd)
  by_cases h0 : n = 0 <;> by_cases hm0 : m = 0
  · rw [h0, hm0]
  · exfalso
    subst h0
    have h2 : (['0'] : List Char) = ((Nat.digits 10 m).reverse).map digitChar := by
      rw [← toDigitsAux_eq_digits m m le_rfl]
      simpa [natRepr, hm0] using h
    have h' : ([0] : List Nat).map digitChar = ((Nat.digits 10 m).reverse).map digitChar := by
      simpa [digitChar] using h2
    have heq := map_digitChar_inj [0] ((Nat.digits 10 m).reverse) (by simp) (digitsLt m) h'
    have hdig : Nat.digits 10 m = [0] := by
      have := congrArg List.reverse heq
      simpa using this.symm
    have hofd := Nat.ofDigits_digits 10 m
    rw [hdig] at hofd
    simp [Nat.ofDigits] at hofd
    exact hm0 hofd.symm
  · exfalso
    subst hm0
    have h2 : ((Nat.digits 10 n).reverse).map digitChar = (['0'] : List Char) := by
      rw [← toDigitsAux_eq_digits n n le_rfl]
      simpa [natRepr, h0] using h
    have h' : ((Nat.digits 10 n).reverse).map digitChar = ([0] : List Nat).map digitChar := by
      simpa [digitChar] using h2
    have heq := map_digitChar_inj ((Nat.digits 10 n).reverse) [0] (digitsLt n) (by simp) h'
    have hdig : Nat.digits 10 n = [0] := by
      have := congrArg List.reverse heq
      simpa using this
    have hofd := Nat.ofDigits_digits 10 n
    rw [hdig] at hofd
    simp [Nat.ofDigits] at hofd
    exact h0 hofd.symm
  · rw [natRepr, if_neg h0, natRepr, if_neg hm0, toDigitsAux_eq_digits n n le_rfl,
      toDigitsAux_eq_digits m m le_rfl] at h
    have := map_digitChar_inj _ _ (digitsLt n) (digitsLt m) h
    have hrev := congrArg List.reverse this
    simp only [List.reverse_reverse] at hrev
    have h1 := Nat.ofDigits_digits 10 n
    have h2 := Nat.ofDigits_digits 10 m
    rw [hrev] at h1
    rw [h2] at h1
    exact h1.symm

theorem append_sep_inj :
    ∀ (a b x y : List Char), '_' ∉ a → '_' ∉ b →
      a ++ '_' :: x = b ++ '_' :: y → a = b ∧ x = y := by
  intro a
  induction a with
  | nil =>
    intro b x y _ hb h
    cases b with
    | nil => simpa using h
    | cons c cs =>
      exfalso
      simp only [List.nil_append, List.cons_append, List.cons.injEq] at h
      exact hb (h.1 ▸ List.mem_cons_self c cs)
  | cons c cs ih =>
    intro b x y ha hb h
    cases b with
    | nil =>
      exfalso
      simp only [List.cons_append, List.nil_append, List.cons.injEq] at h
      exact ha (h.1 ▸ List.mem_cons_self c cs)
    | cons d ds =>
      simp only [List.cons_append, List.cons.injEq] at h
      obtain ⟨hcd, hrest⟩ := h
      have ha' : '_' ∉ cs := fun hm => ha (List.mem_cons_of_mem c hm)
      have hb' : '_' ∉ ds := fun hm => hb (List.mem_cons_of_mem d hm)
      obtain ⟨h1, h2⟩ := ih ds x y ha' hb' hrest
      exact ⟨by rw [hcd, h1], h2⟩

theorem string_data_append (s t : String) : (s ++ t).data = s.data ++ t.data := rfl

theorem string_eq_of_data (s t : String) (h : s.data = t.data) : s = t := by
  cases s
  cases t
  simp only at h
  rw [h]

theorem generateHistoryKey_data (m : Module) :
    (generateHistoryKey m).data =
      (itoa m.priorityGroup).data ++ '_' ::
        ((runTypeString m).data ++ '_' :: (m.type.data ++ '_' :: m.name.data)) := by
  simp [generateHistoryKey, string_data_append, List.append_assoc]

theorem validateModule_ok (m : Module) (h : validateModule m = .ok ()) :
    ((if m.runOnce then (1 : Nat) else 0) + (if m.runPerBoot then 1 else 0) +
      (if m.runPerInstance then 1 else 0) = 1) ∧ 1 ≤ m.priorityGroup := by
  have hrun : (if m.runOnce then (1 : Nat) else 0) + (if m.runPerBoot then 1 else 0) +
      (if m.runPerInstance then 1 else 0) = 1 := by
    by_contra hc
    simp [validateModule, hc] at h
  have hpri : ¬m.priorityGroup < 1 := by
    intro hc
    simp [validateModule, hrun, hc] at h
  exact ⟨hrun, by omega⟩

theorem runTypeString_cases (m : Module) (h : validateModule m = .ok ()) :
    runTypeString m ∈ (["RunOnce", "RunPerInstance", "RunPerBoot"] : List String) := by
  have hrun := (validateModule_ok m h).1
  cases hb : m.runPerBoot <;> cases hp : m.runPerInstance <;> cases ho : m.runOnce <;>
    rw [hb, hp, ho] at hrun <;>
    simp only [runTypeString, hb, hp, ho, if_true, if_false, Bool.false_eq_true,
      Bool.true_eq_false] <;>
    first
      | decide
      | simp at hrun

/-- C6: the history key is exactly
`<priority>_<runType>_<typeTag>_<name>`; for a validated module the run-type
word is one of `RunOnce`, `RunPerInstance`, `RunPerBoot` (the one whose flag
is set); and over validated, identified modules the key determines the
tuple (priority, runType, typeTag, name) — any change of name, priority,
type, or run type yields a different key. -/
theorem generateHistoryKey_injective (m₁ m₂ : Module)
    (hv₁ : validateModule m₁ = .ok ())
    (ht₁ : m₁.type ∈ (["command", "sshkeys", "userdata", "networkcheck"] : List String))
    (hv₂ : validateModule m₂ = .ok ())
    (ht₂ : m₂.type ∈ (["command", "sshkeys", "userdata", "networkcheck"] : List String)) :
    generateHistoryKey m₁ = itoa m₁.priorityGroup ++ "_" ++ runTypeString m₁ ++ "_"
      ++ m₁.type ++ "_" ++ m₁.name ∧
    runTypeString m₁ ∈ (["RunOnce", "RunPerInstance", "RunPerBoot"] : List String) ∧
    (generateHistoryKey m₁ = generateHistoryKey m₂ →
      m₁.priorityGroup = m₂.priorityGroup ∧ runTypeString m₁ = runTypeString m₂ ∧
      m₁.type = m₂.type ∧ m₁.name = m₂.name) := by
  refine ⟨rfl, runTypeString_cases m₁ hv₁, fun hkey => ?_⟩
  have hd := congrArg String.data hkey
  rw [generateHistoryKey_data, generateHistoryKey_data] at hd
  have hpri₁ := (validateModule_ok m₁ hv₁).2
  have hpri₂ := (validateModule_ok m₂ hv₂).2
  have hitoa : ∀ p : Int, 1 ≤ p → (itoa p).data = natRepr p.toNat := by
    intro p hp
    rw [itoa, if_neg (by omega)]
  have hu₁ : '_' ∉ (itoa m₁.priorityGroup).data := by
    rw [hitoa _ hpri₁]
    exact underscore_not_mem_natRepr _
  have hu₂ : '_' ∉ (itoa m₂.priorityGroup).data := by
    rw [hitoa _ hpri₂]
    exact underscore_not_mem_natRepr _
  obtain ⟨e₁, hrest₁⟩ := append_sep_inj _ _ _ _ hu₁ hu₂ hd
  have hrtu : ∀ k : Module, validateModule k = .ok () → '_' ∉ (runTypeString k).data := by
    intro k hk
    have := runTypeString_cases k hk
    simp only [List.mem_cons, List.not_mem_nil, or_false, List.mem_singleton] at this
    rcases this with h | h | h <;> rw [h] <;> decide
  have htyu : ∀ k : Module,
      k.type ∈ (["command", "sshkeys", "userdata", "networkcheck"] : List String) →
      '_' ∉ k.type.data := by
    intro k hk
    simp only [List.mem_cons, List.not_mem_nil, or_false, List.mem_singleton] at hk
    rcases hk with h | h | h | h <;> rw [h] <;> decide
  obtain ⟨e₂, hrest₂⟩ := append_sep_inj _ _ _ _ (hrtu m₁ hv₁) (hrtu m₂ hv₂) hrest₁
  obtain ⟨e₃, e₄⟩ := append_sep_inj _ _ _ _ (htyu m₁ ht₁) (htyu m₂ ht₂) hrest₂
  refine ⟨?_, string_eq_of_data _ _ e₂, string_eq_of_data _ _ e₃, string_eq_of_data _ _ e₄⟩
  rw [hitoa _ hpri₁, hitoa _ hpri₂] at e₁
  have := natRepr_inj _ _ e₁
  omega

/-- Witness for C6: the theorem applied to the concrete validated module
`modP1` (both as left and right argument). -/
theorem generateHistoryKey_injective_witness :
    runTypeString modP1 ∈ (["RunOnce", "RunPerInstance", "RunPerBoot"] : List String) ∧
    modP1.priorityGroup = modP1.priorityGroup ∧ modP1.type = modP1.type := by
  obtain ⟨_, hmem, hinj⟩ :=
    generateHistoryKey_injective modP1 modP1 rfl (by decide) rfl (by decide)
  obtain ⟨hp, _, hty, _⟩ := hinj rfl
  exact ⟨hmem, hp, hty⟩

end EC2MacOSInit
